import Mathlib

/-!
Gitea commit-status notifier.

A shallow embedding of `internal/notifier/gitea.go`: the adapter constructor
`NewGitea`, the reporter `Post`, the state translation `toGiteaState` and the
deduplication test `duplicateGiteaStatus`, followed by the properties proved
about them.

Go strings are Lean strings; a Go `error` is a value of `Error`, `nil` being
`none`. Collaborators whose code lies outside `gitea.go` (the address parser,
the revision parser, the name/description formatter, the URL parser, the
Gitea SDK client) are parameters of the embedding, so every theorem holds for
all of their behaviours.
-/

set_option autoImplicit false

namespace Notifier

/-! ## Data model -/

/-- A Go `error` value. `errorString` is what `errors.New` and `fmt.Errorf`
(without `%w`) build; `other` stands for an error value of any other dynamic
type handed back by a collaborator. -/
inductive Error where
  | errorString (s : String)
  | other (typ : String) (s : String)
deriving DecidableEq, Repr

/-- The `Error()` method: the message of an error value. -/
def Error.msg : Error → String
  | .errorString s => s
  | .other _ s => s

/-- The SDK type `gitea.StatusState` is a string type. -/
abbrev StatusState := String

/-- SDK constant `gitea.StatusPending`. -/
def StatusPending : StatusState := "pending"
/-- SDK constant `gitea.StatusSuccess`. -/
def StatusSuccess : StatusState := "success"
/-- SDK constant `gitea.StatusError`. -/
def StatusError : StatusState := "error"
/-- SDK constant `gitea.StatusFailure`. -/
def StatusFailure : StatusState := "failure"

/-- The fields of the SDK record `gitea.Status` that the notifier reads. -/
structure Status where
  State : StatusState
  Description : String
  Context : String
deriving DecidableEq, Repr

/-- SDK record `gitea.CreateStatusOption`. -/
structure CreateStatusOption where
  State : StatusState
  TargetURL : String
  Description : String
  Context : String
deriving DecidableEq, Repr

/-- SDK record `gitea.ListStatusesOption` (its embedded `ListOptions`). -/
structure ListStatusesOption where
  Page : Int
  PageSize : Int
deriving DecidableEq, Repr

/-- The `corev1.ObjectReference` fields of an event's involved object. -/
structure ObjectReference where
  Kind : String
  Namespace : String
  Name : String

/-- The event record `eventv1.Event`. `Metadata` is a Go map, read here only
through key lookup. -/
structure Event where
  InvolvedObject : ObjectReference
  Severity : String
  Message : String
  Reason : String
  Metadata : String → Option String
  ReportingController : String
  ReportingInstance : String

/-- Library constant `eventv1.EventSeverityInfo`. -/
def EventSeverityInfo : String := "info"
/-- Library constant `eventv1.EventSeverityError`. -/
def EventSeverityError : String := "error"
/-- Library constant `eventv1.MetaRevisionKey`. -/
def MetaRevisionKey : String := "revision"
/-- Library constant `meta.ProgressingReason`. -/
def ProgressingReason : String := "Progressing"

/-- Library method `Event.HasReason`: the event's reason equals the given one. -/
def Event.HasReason (event : Event) (reason : String) : Bool :=
  event.Reason == reason

/-! ## State translation and deduplication -/

/-- Go `toGiteaState`: the state and the error returned with it. -/
def toGiteaState (event : Event) : StatusState × Option Error :=
  if event.HasReason ProgressingReason then
    (StatusPending, none)
  else if event.Severity = EventSeverityInfo then
    (StatusSuccess, none)
  else if event.Severity = EventSeverityError then
    (StatusFailure, none)
  else
    (StatusError, some (.errorString "can't convert to gitea state"))

/-- The `for ... range statuses` loop of `duplicateGiteaStatus`. -/
def duplicateLoop (status : CreateStatusOption) : List Status → Bool
  | [] => false
  | s :: rest =>
    if s.Context = "" ∨ s.State = "" ∨ s.Description = "" then
      duplicateLoop status rest
    else if s.Context = status.Context then
      if s.State = status.State ∧ s.Description = status.Description then true
      else false
    else
      duplicateLoop status rest

/-- Go `duplicateGiteaStatus`. The `status` pointer may be nil (`none`); a nil
slice of statuses is the empty list. -/
def duplicateGiteaStatus (statuses : List Status) (status : Option CreateStatusOption) : Bool :=
  match status with
  | none => false
  | some st => duplicateLoop st statuses

/-- A record takes part in the comparison when none of its three fields is
empty. -/
def Status.comparable (s : Status) : Prop :=
  s.Context ≠ "" ∧ s.State ≠ "" ∧ s.Description ≠ ""

instance (s : Status) : Decidable s.comparable := by
  unfold Status.comparable; infer_instance

/-! ## The adapter and its constructor -/

/-- Go `Gitea`. The type `κ` is the SDK client handle `*gitea.Client`. -/
structure Gitea (κ : Type) where
  BaseURL : String
  Token : String
  Owner : String
  Repo : String
  client : κ
  debug : Bool

/-- Splitting a character sequence at every occurrence of `sep`; the result has
one more piece than there are occurrences, so the empty sequence gives one
empty piece. -/
def splitSep (sep : Char) : List Char → List (List Char)
  | [] => [[]]
  | c :: cs =>
    if c = sep then [] :: splitSep sep cs
    else
      match splitSep sep cs with
      | [] => [[c]]
      | w :: ws => (c :: w) :: ws

/-- Go `strings.Split(s, sep)` for a separator of one character. -/
def stringsSplit (s : String) (sep : Char) : List String :=
  (splitSep sep s.data).map String.mk

/-- What `NewGitea` calls outside `gitea.go`: `parseGitAddress` (same package,
another file), `url.Parse` (only its error is used), the `%q` verb of
`fmt.Errorf`, `gitea.NewClient` with the token option, the client's
`SetHTTPClient` with a transport trusting the given pool (type `ρ`), and
`os.Getenv`. -/
structure Deps (κ ρ : Type) where
  parseGitAddress : String → Except Error (String × String)
  urlParse : String → Option Error
  quote : String → String
  newClient : String → String → Except Error κ
  setHTTPClient : κ → ρ → κ
  getenv : String → String

/-- Go `NewGitea`: the adapter (or nil) and the error (or nil). -/
def NewGitea {κ ρ : Type} (d : Deps κ ρ) (addr token : String) (certPool : Option ρ) :
    Option (Gitea κ) × Option Error :=
  if token.length = 0 then
    (none, some (.errorString "github token cannot be empty"))
  else
    match d.parseGitAddress addr with
    | .error err => (none, some err)
    | .ok (host, id) =>
      match d.urlParse host with
      | some err => (none, some err)
      | none =>
        match stringsSplit id '/' with
        | [comp0, comp1] =>
          match d.newClient host token with
          | .error err => (none, some err)
          | .ok client =>
            let client := match certPool with
              | some pool => d.setHTTPClient client pool
              | none => client
            let debug := d.getenv "NOTIFIER_GITEA_DEBUG" == "true"
            (some { BaseURL := host, Token := token, Owner := comp0, Repo := comp1,
                    client := client, debug := debug }, none)
        | _ => (none, some (.errorString ("invalid repository id " ++ d.quote id)))

/-! ## Reporting one event -/

/-- What `Post` calls in the same package outside `gitea.go`. -/
structure Helpers where
  parseRevision : String → Except Error String
  formatNameAndDescription : Event → String × String

/-- The SDK client as seen by `Post`. The remote service has a state of type
`σ`; each call answers and moves the service to a new state. `ListStatuses`
answers with the records or an error, `CreateStatus` with an error or nil. -/
structure GiteaAPI (κ σ : Type) where
  ListStatuses : κ → σ → String → String → String → ListStatusesOption →
    Except Error (List Status) × σ
  CreateStatus : κ → σ → String → String → String → CreateStatusOption →
    Option Error × σ

/-- A call made on the SDK client, with its arguments: owner, repository,
revision and the option record. -/
inductive RemoteCall where
  | listStatuses (owner repo sha : String) (opt : ListStatusesOption)
  | createStatus (owner repo sha : String) (opt : CreateStatusOption)
deriving DecidableEq, Repr

/-- Whether a call is a create-status call. -/
def RemoteCall.isCreate : RemoteCall → Bool
  | .createStatus _ _ _ _ => true
  | .listStatuses _ _ _ _ => false

/-- Whether a call is a list-statuses call. -/
def RemoteCall.isList : RemoteCall → Bool
  | .listStatuses _ _ _ _ => true
  | .createStatus _ _ _ _ => false

/-- What one run of `Post` leaves behind: the returned error (or nil), the
calls made on the client in order, the messages written to the debug log, and
the state of the remote service. -/
structure PostResult (σ : Type) where
  err : Option Error
  calls : List RemoteCall
  logs : List String
  remote : σ

/-- Go `Gitea.Post`. -/
def Post {κ σ : Type} (h : Helpers) (api : GiteaAPI κ σ) (g : Gitea κ) (s : σ)
    (event : Event) : PostResult σ :=
  match event.Metadata MetaRevisionKey with
  | none => ⟨some (.errorString "missing revision metadata"), [], [], s⟩
  | some revString =>
    match h.parseRevision revString with
    | .error err => ⟨some err, [], [], s⟩
    | .ok rev =>
      match toGiteaState event with
      | (_, some err) => ⟨some err, [], [], s⟩
      | (state, none) =>
        let (name, desc) := h.formatNameAndDescription event
        let status : CreateStatusOption :=
          { State := state, TargetURL := "", Description := desc, Context := name }
        let listStatusesOpts : ListStatusesOption := { Page := 0, PageSize := 50 }
        let listCall := RemoteCall.listStatuses g.Owner g.Repo rev listStatusesOpts
        match api.ListStatuses g.client s g.Owner g.Repo rev listStatusesOpts with
        | (.error err, s1) =>
          ⟨some (.errorString ("could not list commit statuses: " ++ err.msg)),
            [listCall], [], s1⟩
        | (.ok statuses, s1) =>
          if duplicateGiteaStatus statuses (some status) then
            ⟨none, [listCall],
              if g.debug then ["gitea skip posting duplicate status"] else [], s1⟩
          else
            let createCall := RemoteCall.createStatus g.Owner g.Repo rev status
            let logBegin := if g.debug then ["gitea create commit begin"] else []
            match api.CreateStatus g.client s1 g.Owner g.Repo rev status with
            | (some err, s2) =>
              ⟨some err, [listCall, createCall],
                logBegin ++ (if g.debug then ["gitea create commit failed"] else []), s2⟩
            | (none, s2) =>
              ⟨none, [listCall, createCall],
                logBegin ++ (if g.debug then ["gitea create commit ok"] else []), s2⟩

/-- The number of create-status calls among the calls of a run. -/
def createCount (calls : List RemoteCall) : Nat :=
  (calls.filter RemoteCall.isCreate).length

/-- The number of list-statuses calls among the calls of a run. -/
def listCount (calls : List RemoteCall) : Nat :=
  (calls.filter RemoteCall.isList).length

/-- The status record that `Post` builds for an event. -/
def statusOf (h : Helpers) (event : Event) : CreateStatusOption :=
  { State := (toGiteaState event).1, TargetURL := "",
    Description := (h.formatNameAndDescription event).2,
    Context := (h.formatNameAndDescription event).1 }

/-- The list options that `Post` passes to `ListStatuses`. -/
def postListOptions : ListStatusesOption := { Page := 0, PageSize := 50 }

/-! ## Concrete instances

Stand-ins for the collaborators, used where a statement is evaluated on a
concrete input. -/

/-- A stand-in for `parseRevision`: the revision is the text after the last
`/` of the metadata value, which must contain a `/` and end in a non-empty
piece. -/
def sampleParseRevision (rev : String) : Except Error String :=
  let comp := stringsSplit rev '/'
  if comp.length < 2 then .error (.errorString ("revision string format incorrect: " ++ rev))
  else
    match comp.getLast? with
    | some sha => if sha = "" then .error (.errorString "commit sha cannot be empty") else .ok sha
    | none => .error (.errorString ("revision string format incorrect: " ++ rev))

/-- A stand-in for `formatNameAndDescription`: the name is kind and name of
the involved object joined by `/`, the description is the event's reason. -/
def sampleFormat (event : Event) : String × String :=
  (event.InvolvedObject.Kind ++ "/" ++ event.InvolvedObject.Name, event.Reason)

/-- The two stand-ins together. -/
def sampleHelpers : Helpers :=
  { parseRevision := sampleParseRevision, formatNameAndDescription := sampleFormat }

/-- A remote service holding the records of one commit, newest first: listing
answers with `listErr` if given and with the records otherwise; creating
answers with `createErr` if given and otherwise stores the new record in
front. -/
def sampleAPI (listErr createErr : Option Error) : GiteaAPI Unit (List Status) :=
  { ListStatuses := fun _ store _ _ _ _ =>
      match listErr with
      | some err => (.error err, store)
      | none => (.ok store, store)
    CreateStatus := fun _ store _ _ _ opt =>
      match createErr with
      | some err => (some err, store)
      | none => (none, ⟨opt.State, opt.Description, opt.Context⟩ :: store) }

/-- An adapter for repository `foo/bar`. -/
def sampleGitea : Gitea Unit :=
  { BaseURL := "https://try.gitea.io", Token := "foobar", Owner := "foo", Repo := "bar",
    client := (), debug := false }

/-- An event about the object `Kustomization/app` with the given severity,
reason and revision metadata. -/
def sampleEvent (severity reason : String) (revision : Option String) : Event :=
  { InvolvedObject := ⟨"Kustomization", "flux-system", "app"⟩
    Severity := severity
    Message := ""
    Reason := reason
    Metadata := fun key => if key = MetaRevisionKey then revision else none
    ReportingController := "kustomize-controller"
    ReportingInstance := "" }

/-- A stand-in for `parseGitAddress`: an address `scheme://host/path` is split
into the host portion `scheme://host`, kept as written, and the path after
the `/` that follows the host, the repository identifier. -/
def sampleParseGitAddress (addr : String) : Except Error (String × String) :=
  match stringsSplit addr '/' with
  | scheme :: "" :: hostname :: piece :: pieces =>
    .ok (scheme ++ "//" ++ hostname, "/".intercalate (piece :: pieces))
  | _ => .error (.errorString ("failed parsing URL " ++ addr))

/-- Stand-ins for the collaborators of `NewGitea`: every host is a valid URL,
the client handle is the host it was built for, and the environment is empty. -/
def sampleDeps : Deps String Unit :=
  { parseGitAddress := sampleParseGitAddress
    urlParse := fun _ => none
    quote := fun id => "\"" ++ id ++ "\""
    newClient := fun host _ => .ok host
    setHTTPClient := fun client _ => client
    getenv := fun _ => "" }

end Notifier

namespace Notifier

/-! ## Deduplication -/

theorem duplicateLoop_iff (st : CreateStatusOption) (statuses : List Status) :
    duplicateLoop st statuses = true ↔
      ∃ s, statuses.find? (fun s => decide (s.comparable ∧ s.Context = st.Context)) = some s ∧
        s.State = st.State ∧ s.Description = st.Description := by
  induction statuses with
  | nil => simp [duplicateLoop]
  | cons s rest ih =>
    by_cases hc : s.Context = "" ∨ s.State = "" ∨ s.Description = ""
    · have hn : ¬ s.comparable := by
        unfold Status.comparable
        tauto
      simp only [duplicateLoop, if_pos hc, ih]
      simp [List.find?_cons, hn]
    · have hy : s.comparable := by
        unfold Status.comparable
        tauto
      by_cases hx : s.Context = st.Context
      · simp only [duplicateLoop, if_neg hc, if_pos hx]
        simp [List.find?_cons, hy, hx]
      · simp only [duplicateLoop, if_neg hc, if_neg hx, ih]
        simp [List.find?_cons, hx]

theorem duplicateLoop_false_of_no_context (st : CreateStatusOption) (statuses : List Status)
    (h : ∀ s ∈ statuses, s.comparable → s.Context ≠ st.Context) :
    duplicateLoop st statuses = false := by
  cases hd : duplicateLoop st statuses with
  | false => rfl
  | true =>
    obtain ⟨s, hs, -, -⟩ := (duplicateLoop_iff st statuses).mp hd
    have hmem := List.mem_of_find?_eq_some hs
    have hp := List.find?_some hs
    simp only [decide_eq_true_eq] at hp
    exact absurd hp.2 (h s hmem hp.1)

/-- C1. `duplicateGiteaStatus` answers true exactly when the first comparable
record with the new status's context exists and carries the new status's state
and description; it answers false on the empty list and when no comparable
record has the context. -/
theorem duplicateGiteaStatus_iff (statuses : List Status) (st : CreateStatusOption) :
    (duplicateGiteaStatus statuses (some st) = true ↔
      ∃ s, statuses.find? (fun s => decide (s.comparable ∧ s.Context = st.Context)) = some s ∧
        s.State = st.State ∧ s.Description = st.Description) ∧
    duplicateGiteaStatus [] (some st) = false ∧
    ((∀ s ∈ statuses, s.comparable → s.Context ≠ st.Context) →
      duplicateGiteaStatus statuses (some st) = false) :=
  ⟨duplicateLoop_iff st statuses, rfl, duplicateLoop_false_of_no_context st statuses⟩

/-! ## State translation -/

/-- C2. A progressing event maps to Pending whatever its severity; otherwise
severity info maps to Success, severity error to Failure, and every other
severity makes `toGiteaState` fail with an error. -/
theorem toGiteaState_spec (event : Event) :
    (event.HasReason ProgressingReason = true →
      toGiteaState event = (StatusPending, none)) ∧
    (event.HasReason ProgressingReason = false → event.Severity = EventSeverityInfo →
      toGiteaState event = (StatusSuccess, none)) ∧
    (event.HasReason ProgressingReason = false → event.Severity = EventSeverityError →
      toGiteaState event = (StatusFailure, none)) ∧
    (event.HasReason ProgressingReason = false → event.Severity ≠ EventSeverityInfo →
      event.Severity ≠ EventSeverityError → ∃ err, (toGiteaState event).2 = some err) := by
  refine ⟨?_, ?_, ?_, ?_⟩
  · intro hp
    simp [toGiteaState, hp]
  · intro hp hs
    simp [toGiteaState, hp, hs]
  · intro hp hs
    have hne : EventSeverityError ≠ EventSeverityInfo := by decide
    simp [toGiteaState, hp, hs, hne]
  · intro hp h1 h2
    simp [toGiteaState, hp, h1, h2]

/-- A successful translation yields one of the three non-empty states. -/
theorem toGiteaState_ok_ne_empty (event : Event) (state : StatusState)
    (h : toGiteaState event = (state, none)) : state ≠ "" := by
  unfold toGiteaState at h
  split_ifs at h <;> simp only [Prod.mk.injEq] at h
  · rw [← h.1]; decide
  · rw [← h.1]; decide
  · rw [← h.1]; decide
  · exact absurd h.2 (by simp)

/-! ## Reporting one event -/

/-- The runs of `Post`, one per exit of the function. -/
theorem Post_cases {κ σ : Type} (h : Helpers) (api : GiteaAPI κ σ) (g : Gitea κ) (s : σ)
    (event : Event) :
    (event.Metadata MetaRevisionKey = none ∧
      Post h api g s event = ⟨some (.errorString "missing revision metadata"), [], [], s⟩) ∨
    (∃ revString err, event.Metadata MetaRevisionKey = some revString ∧
      h.parseRevision revString = .error err ∧
      Post h api g s event = ⟨some err, [], [], s⟩) ∨
    (∃ revString rev err, event.Metadata MetaRevisionKey = some revString ∧
      h.parseRevision revString = .ok rev ∧ (toGiteaState event).2 = some err ∧
      Post h api g s event = ⟨some err, [], [], s⟩) ∨
    (∃ revString rev err s1, event.Metadata MetaRevisionKey = some revString ∧
      h.parseRevision revString = .ok rev ∧ (toGiteaState event).2 = none ∧
      api.ListStatuses g.client s g.Owner g.Repo rev postListOptions = (.error err, s1) ∧
      Post h api g s event =
        ⟨some (.errorString ("could not list commit statuses: " ++ err.msg)),
          [.listStatuses g.Owner g.Repo rev postListOptions], [], s1⟩) ∨
    (∃ revString rev statuses s1, event.Metadata MetaRevisionKey = some revString ∧
      h.parseRevision revString = .ok rev ∧ (toGiteaState event).2 = none ∧
      api.ListStatuses g.client s g.Owner g.Repo rev postListOptions = (.ok statuses, s1) ∧
      duplicateGiteaStatus statuses (some (statusOf h event)) = true ∧
      Post h api g s event =
        ⟨none, [.listStatuses g.Owner g.Repo rev postListOptions],
          if g.debug then ["gitea skip posting duplicate status"] else [], s1⟩) ∨
    (∃ revString rev statuses s1 err s2, event.Metadata MetaRevisionKey = some revString ∧
      h.parseRevision revString = .ok rev ∧ (toGiteaState event).2 = none ∧
      api.ListStatuses g.client s g.Owner g.Repo rev postListOptions = (.ok statuses, s1) ∧
      duplicateGiteaStatus statuses (some (statusOf h event)) = false ∧
      api.CreateStatus g.client s1 g.Owner g.Repo rev (statusOf h event) = (some err, s2) ∧
      Post h api g s event =
        ⟨some err, [.listStatuses g.Owner g.Repo rev postListOptions,
            .createStatus g.Owner g.Repo rev (statusOf h event)],
          (if g.debug then ["gitea create commit begin"] else []) ++
            (if g.debug then ["gitea create commit failed"] else []), s2⟩) ∨
    (∃ revString rev statuses s1 s2, event.Metadata MetaRevisionKey = some revString ∧
      h.parseRevision revString = .ok rev ∧ (toGiteaState event).2 = none ∧
      api.ListStatuses g.client s g.Owner g.Repo rev postListOptions = (.ok statuses, s1) ∧
      duplicateGiteaStatus statuses (some (statusOf h event)) = false ∧
      api.CreateStatus g.client s1 g.Owner g.Repo rev (statusOf h event) = (none, s2) ∧
      Post h api g s event =
        ⟨none, [.listStatuses g.Owner g.Repo rev postListOptions,
            .createStatus g.Owner g.Repo rev (statusOf h event)],
          (if g.debug then ["gitea create commit begin"] else []) ++
            (if g.debug then ["gitea create commit ok"] else []), s2⟩) := by
  rcases hm : event.Metadata MetaRevisionKey with _ | revString
  · left
    exact ⟨rfl, by simp [Post, hm]⟩
  right
  rcases hp : h.parseRevision revString with err | rev
  · left
    exact ⟨revString, err, rfl, hp, by simp [Post, hm, hp]⟩
  right
  rcases ht : toGiteaState event with ⟨state, _ | err⟩
  swap
  · left
    exact ⟨revString, rev, err, rfl, hp, rfl, by simp [Post, hm, hp, ht]⟩
  right
  have hst : statusOf h event =
      { State := state, TargetURL := "", Description := (h.formatNameAndDescription event).2,
        Context := (h.formatNameAndDescription event).1 } := by
    simp [statusOf, ht]
  rcases hl : api.ListStatuses g.client s g.Owner g.Repo rev postListOptions with ⟨res, s1⟩
  have hl2 : api.ListStatuses g.client s g.Owner g.Repo rev { Page := 0, PageSize := 50 }
      = (res, s1) := hl
  rcases res with err | statuses
  · left
    exact ⟨revString, rev, err, s1, rfl, hp, rfl, hl, by simp [Post, hm, hp, ht, hl2, postListOptions]⟩
  right
  rcases hd : duplicateGiteaStatus statuses (some (statusOf h event)) with _ | _
  swap
  · left
    have hd2 := hd
    rw [hst] at hd2
    exact ⟨revString, rev, statuses, s1, rfl, hp, rfl, hl, hd,
      by simp [Post, hm, hp, ht, hl2, hd2, postListOptions]⟩
  right
  rcases hc : api.CreateStatus g.client s1 g.Owner g.Repo rev (statusOf h event) with ⟨res, s2⟩
  have hd2 := hd
  have hc2 := hc
  rw [hst] at hd2 hc2
  rcases res with _ | err
  swap
  · left
    exact ⟨revString, rev, statuses, s1, err, s2, rfl, hp, rfl, hl, hd, hc,
      by simp [Post, hm, hp, ht, hl2, hd2, hc2, postListOptions, hst]⟩
  right
  exact ⟨revString, rev, statuses, s1, s2, rfl, hp, rfl, hl, hd, hc,
      by simp [Post, hm, hp, ht, hl2, hd2, hc2, postListOptions, hst]⟩

/-- When the first record with the context of the new status is comparable,
the loop answers by comparing that record with the new status. -/
theorem duplicateLoop_of_first (st : CreateStatusOption) (statuses : List Status) (r : Status)
    (hfirst : statuses.find? (fun x => decide (x.Context = st.Context)) = some r)
    (hr : r.comparable) :
    duplicateLoop st statuses =
      decide (r.State = st.State ∧ r.Description = st.Description) := by
  induction statuses with
  | nil => simp at hfirst
  | cons x rest ih =>
    by_cases hx : x.Context = st.Context
    · have hxr : x = r := by simpa [List.find?_cons, hx] using hfirst
      subst hxr
      have hc : ¬ (x.Context = "" ∨ x.State = "" ∨ x.Description = "") := by
        unfold Status.comparable at hr
        tauto
      simp only [duplicateLoop, if_neg hc, if_pos hx]
      by_cases hsd : x.State = st.State ∧ x.Description = st.Description
      · simp [hsd]
      · simp only [if_neg hsd]
        exact (decide_eq_false hsd).symm
    · have hrest : rest.find? (fun x => decide (x.Context = st.Context)) = some r := by
        simpa [List.find?_cons, hx] using hfirst
      by_cases hc : x.Context = "" ∨ x.State = "" ∨ x.Description = ""
      · simp only [duplicateLoop, if_pos hc]
        exact ih hrest
      · simp only [duplicateLoop, if_neg hc, if_neg hx]
        exact ih hrest

/-- Deduplication on comparable records. Let the first listed record with
context `c` be `{context c, state S, description D}` with `c` and `D`
non-empty. For an event with a well-formed revision that maps to `(c, S, X)`,
`Post` issues no create-status call when `X = D` and exactly one when
`X ≠ D`. -/
theorem Post_dedup {κ σ : Type} (h : Helpers) (api : GiteaAPI κ σ) (g : Gitea κ) (s s1 : σ)
    (event : Event) (revString rev c S D X : String) (statuses : List Status)
    (hrev : event.Metadata MetaRevisionKey = some revString)
    (hparse : h.parseRevision revString = .ok rev)
    (hstate : toGiteaState event = (S, none))
    (hfmt : h.formatNameAndDescription event = (c, X))
    (hlist : api.ListStatuses g.client s g.Owner g.Repo rev postListOptions = (.ok statuses, s1))
    (hfirst : statuses.find? (fun r => decide (r.Context = c)) = some ⟨S, D, c⟩)
    (hc : c ≠ "") (hD : D ≠ "") :
    createCount (Post h api g s event).calls = if X = D then 0 else 1 := by
  have hS : S ≠ "" := toGiteaState_ok_ne_empty event S hstate
  have hst : statusOf h event = ⟨S, "", X, c⟩ := by simp [statusOf, hstate, hfmt]
  have hdup : duplicateGiteaStatus statuses (some (statusOf h event)) = decide (D = X) := by
    rw [hst]
    have := duplicateLoop_of_first ⟨S, "", X, c⟩ statuses ⟨S, D, c⟩ hfirst ⟨hc, hS, hD⟩
    simpa [duplicateGiteaStatus] using this
  rcases Post_cases h api g s event with
    ⟨hm, -⟩ | ⟨r, e, hm, hp, -⟩ | ⟨r, v, e, hm, hp, ht, -⟩ | ⟨r, v, e, t1, hm, hp, ht, hl, -⟩ |
    ⟨r, v, sts, t1, hm, hp, ht, hl, hd, hP⟩ | ⟨r, v, sts, t1, e, t2, hm, hp, ht, hl, hd, hcr, hP⟩ |
    ⟨r, v, sts, t1, t2, hm, hp, ht, hl, hd, hcr, hP⟩
  · rw [hrev] at hm; cases hm
  · rw [hrev] at hm; cases hm; rw [hparse] at hp; cases hp
  · rw [hstate] at ht; cases ht
  · rw [hrev] at hm; cases hm; rw [hparse] at hp; cases hp; rw [hlist] at hl; cases hl
  · rw [hrev] at hm; cases hm; rw [hparse] at hp; cases hp; rw [hlist] at hl; cases hl
    rw [hdup] at hd
    have hXD : X = D := (of_decide_eq_true hd).symm
    rw [hP, if_pos hXD]
    rfl
  · rw [hrev] at hm; cases hm; rw [hparse] at hp; cases hp; rw [hlist] at hl; cases hl
    rw [hdup] at hd
    have hXD : ¬ X = D := fun hx => (of_decide_eq_false hd) hx.symm
    rw [hP, if_neg hXD]
    rfl
  · rw [hrev] at hm; cases hm; rw [hparse] at hp; cases hp; rw [hlist] at hl; cases hl
    rw [hdup] at hd
    have hXD : ¬ X = D := fun hx => (of_decide_eq_false hd) hx.symm
    rw [hP, if_neg hXD]
    rfl

/-- C4. An event without revision metadata, with a malformed revision, or with
neither the progressing reason nor severity info or error makes `Post` return
an error without any call on the remote service. -/
theorem Post_input_error_no_call {κ σ : Type} (h : Helpers) (api : GiteaAPI κ σ) (g : Gitea κ)
    (s : σ) (event : Event)
    (hbad : event.Metadata MetaRevisionKey = none ∨
      (∃ revString err, event.Metadata MetaRevisionKey = some revString ∧
        h.parseRevision revString = .error err) ∨
      (event.HasReason ProgressingReason = false ∧ event.Severity ≠ EventSeverityInfo ∧
        event.Severity ≠ EventSeverityError)) :
    (Post h api g s event).err ≠ none ∧ (Post h api g s event).calls = [] ∧
      listCount (Post h api g s event).calls = 0 ∧
      createCount (Post h api g s event).calls = 0 := by
  have hstate : (event.HasReason ProgressingReason = false ∧
      event.Severity ≠ EventSeverityInfo ∧ event.Severity ≠ EventSeverityError) →
      (toGiteaState event).2 ≠ none := by
    rintro ⟨h1, h2, h3⟩
    simp [toGiteaState, h1, h2, h3]
  rcases Post_cases h api g s event with
    ⟨hm, hP⟩ | ⟨r, e, hm, hp, hP⟩ | ⟨r, v, e, hm, hp, ht, hP⟩ | ⟨r, v, e, t1, hm, hp, ht, hl, -⟩ |
    ⟨r, v, sts, t1, hm, hp, ht, hl, hd, -⟩ | ⟨r, v, sts, t1, e, t2, hm, hp, ht, hl, hd, hcr, -⟩ |
    ⟨r, v, sts, t1, t2, hm, hp, ht, hl, hd, hcr, -⟩
  · rw [hP]; simp [listCount, createCount]
  · rw [hP]; simp [listCount, createCount]
  · rw [hP]; simp [listCount, createCount]
  all_goals
    exfalso
    rcases hbad with hb | ⟨r2, e2, hb, hb2⟩ | hb
    · rw [hm] at hb; cases hb
    · rw [hm] at hb; cases hb; rw [hp] at hb2; cases hb2
    · exact hstate hb ht

/-- C5. `Post` returns nil exactly when the revision is present and
well-formed, the state translation succeeds, the list-statuses call succeeds,
and either the new status is a duplicate or the create-status call succeeds. -/
theorem Post_nil_iff {κ σ : Type} (h : Helpers) (api : GiteaAPI κ σ) (g : Gitea κ)
    (s : σ) (event : Event) :
    (Post h api g s event).err = none ↔
      ∃ revString rev statuses s1, event.Metadata MetaRevisionKey = some revString ∧
        h.parseRevision revString = .ok rev ∧ (toGiteaState event).2 = none ∧
        api.ListStatuses g.client s g.Owner g.Repo rev postListOptions = (.ok statuses, s1) ∧
        (duplicateGiteaStatus statuses (some (statusOf h event)) = true ∨
          (api.CreateStatus g.client s1 g.Owner g.Repo rev (statusOf h event)).1 = none) := by
  rcases Post_cases h api g s event with
    ⟨hm, hP⟩ | ⟨r, e, hm, hp, hP⟩ | ⟨r, v, e, hm, hp, ht, hP⟩ | ⟨r, v, e, t1, hm, hp, ht, hl, hP⟩ |
    ⟨r, v, sts, t1, hm, hp, ht, hl, hd, hP⟩ | ⟨r, v, sts, t1, e, t2, hm, hp, ht, hl, hd, hcr, hP⟩ |
    ⟨r, v, sts, t1, t2, hm, hp, ht, hl, hd, hcr, hP⟩
  · rw [hP]
    constructor
    · intro hn; cases hn
    · rintro ⟨r2, v2, sts2, u1, hm2, -⟩
      rw [hm] at hm2; cases hm2
  · rw [hP]
    constructor
    · intro hn; cases hn
    · rintro ⟨r2, v2, sts2, u1, hm2, hp2, -⟩
      rw [hm] at hm2; cases hm2; rw [hp] at hp2; cases hp2
  · rw [hP]
    constructor
    · intro hn; cases hn
    · rintro ⟨r2, v2, sts2, u1, -, -, ht2, -⟩
      rw [ht] at ht2; cases ht2
  · rw [hP]
    constructor
    · intro hn; cases hn
    · rintro ⟨r2, v2, sts2, u1, hm2, hp2, -, hl2, -⟩
      rw [hm] at hm2; cases hm2; rw [hp] at hp2; cases hp2; rw [hl] at hl2; cases hl2
  · rw [hP]
    exact ⟨fun _ => ⟨r, v, sts, t1, hm, hp, ht, hl, Or.inl hd⟩, fun _ => rfl⟩
  · rw [hP]
    constructor
    · intro hn; cases hn
    · rintro ⟨r2, v2, sts2, u1, hm2, hp2, -, hl2, hor⟩
      rw [hm] at hm2; cases hm2; rw [hp] at hp2; cases hp2; rw [hl] at hl2; cases hl2
      rcases hor with hd2 | hc2
      · rw [hd] at hd2; cases hd2
      · rw [hcr] at hc2; cases hc2
  · rw [hP]
    refine ⟨fun _ => ⟨r, v, sts, t1, hm, hp, ht, hl, Or.inr ?_⟩, fun _ => rfl⟩
    rw [hcr]

/-- A list-statuses call among the two calls of a full run is the first one. -/
theorem listCall_mem_pair {o r v o2 r2 v2 : String} {opt opt2 : ListStatusesOption}
    {st : CreateStatusOption}
    (hmem : RemoteCall.listStatuses o r v opt ∈
      [RemoteCall.listStatuses o2 r2 v2 opt2, RemoteCall.createStatus o2 r2 v2 st]) :
    v = v2 := by
  rcases List.mem_cons.mp hmem with h1 | h2
  · injection h1
  · rcases List.mem_cons.mp h2 with h3 | h4
    · cases h3
    · cases h4

/-- A create-status call among the two calls of a full run is the second one. -/
theorem createCall_mem_pair {o r v o2 r2 v2 : String} {opt2 : ListStatusesOption}
    {st st2 : CreateStatusOption}
    (hmem : RemoteCall.createStatus o r v st ∈
      [RemoteCall.listStatuses o2 r2 v2 opt2, RemoteCall.createStatus o2 r2 v2 st2]) :
    v = v2 ∧ st = st2 := by
  rcases List.mem_cons.mp hmem with h1 | h2
  · cases h1
  · rcases List.mem_cons.mp h2 with h3 | h4
    · injection h3 with _ _ h5 h6
      exact ⟨h5, h6⟩
    · cases h4

/-- C6. A failing list-statuses call makes `Post` return an error whose message
is the prefix "could not list commit statuses: " followed by the remote
error's message, with no create-status call; a failing create-status call makes
`Post` return the remote error itself. -/
theorem Post_remote_error {κ σ : Type} (h : Helpers) (api : GiteaAPI κ σ) (g : Gitea κ)
    (s : σ) (event : Event) :
    (∀ rev e s1, RemoteCall.listStatuses g.Owner g.Repo rev postListOptions ∈
        (Post h api g s event).calls →
      api.ListStatuses g.client s g.Owner g.Repo rev postListOptions = (.error e, s1) →
      (Post h api g s event).err =
          some (.errorString ("could not list commit statuses: " ++ e.msg)) ∧
        ((Post h api g s event).err.map Error.msg =
          some ("could not list commit statuses: " ++ e.msg)) ∧
        createCount (Post h api g s event).calls = 0) ∧
    (∀ rev st e, RemoteCall.createStatus g.Owner g.Repo rev st ∈ (Post h api g s event).calls →
      (api.CreateStatus g.client
          (api.ListStatuses g.client s g.Owner g.Repo rev postListOptions).2
          g.Owner g.Repo rev st).1 = some e →
      (Post h api g s event).err = some e) := by
  rcases Post_cases h api g s event with
    ⟨hm, hP⟩ | ⟨r, e, hm, hp, hP⟩ | ⟨r, v, e, hm, hp, ht, hP⟩ | ⟨r, v, e, t1, hm, hp, ht, hl, hP⟩ |
    ⟨r, v, sts, t1, hm, hp, ht, hl, hd, hP⟩ | ⟨r, v, sts, t1, e, t2, hm, hp, ht, hl, hd, hcr, hP⟩ |
    ⟨r, v, sts, t1, t2, hm, hp, ht, hl, hd, hcr, hP⟩
  · rw [hP]; simp
  · rw [hP]; simp
  · rw [hP]; simp
  · rw [hP]
    refine ⟨?_, ?_⟩
    · intro rev e2 s1 hmem hl2
      have hv : rev = v := by
        rcases List.mem_cons.mp hmem with h1 | h2
        · injection h1
        · cases h2
      subst hv
      rw [hl] at hl2
      cases hl2
      exact ⟨rfl, rfl, rfl⟩
    · intro rev st e2 hmem
      rcases List.mem_cons.mp hmem with h1 | h2
      · cases h1
      · cases h2
  · rw [hP]
    refine ⟨?_, ?_⟩
    · intro rev e2 s1 hmem hl2
      have hv : rev = v := by
        rcases List.mem_cons.mp hmem with h1 | h2
        · injection h1
        · cases h2
      subst hv
      rw [hl] at hl2
      cases hl2
    · intro rev st e2 hmem
      rcases List.mem_cons.mp hmem with h1 | h2
      · cases h1
      · cases h2
  · rw [hP]
    refine ⟨?_, ?_⟩
    · intro rev e2 s1 hmem hl2
      have hv : rev = v := listCall_mem_pair hmem
      subst hv
      rw [hl] at hl2
      cases hl2
    · intro rev st e2 hmem hc2
      obtain ⟨hv, hs⟩ := createCall_mem_pair hmem
      subst hv
      subst hs
      rw [hl] at hc2
      rw [hcr] at hc2
      exact hc2
  · rw [hP]
    refine ⟨?_, ?_⟩
    · intro rev e2 s1 hmem hl2
      have hv : rev = v := listCall_mem_pair hmem
      subst hv
      rw [hl] at hl2
      cases hl2
    · intro rev st e2 hmem hc2
      obtain ⟨hv, hs⟩ := createCall_mem_pair hmem
      subst hv
      subst hs
      rw [hl] at hc2
      rw [hcr] at hc2
      cases hc2

/-- C7, as amended. When the revision is well-formed and the translation
succeeds, `Post` issues exactly one list-statuses call, as its first call,
addressed to the adapter's owner and repository and the parsed revision, with
`Page` 0 and `PageSize` 50. -/
theorem Post_list_call {κ σ : Type} (h : Helpers) (api : GiteaAPI κ σ) (g : Gitea κ)
    (s : σ) (event : Event) (revString rev : String)
    (hrev : event.Metadata MetaRevisionKey = some revString)
    (hparse : h.parseRevision revString = .ok rev)
    (hstate : (toGiteaState event).2 = none) :
    (Post h api g s event).calls.head? =
        some (.listStatuses g.Owner g.Repo rev { Page := 0, PageSize := 50 }) ∧
      listCount (Post h api g s event).calls = 1 ∧
      ∀ c ∈ (Post h api g s event).calls, c.isList = true →
        c = .listStatuses g.Owner g.Repo rev { Page := 0, PageSize := 50 } := by
  rcases Post_cases h api g s event with
    ⟨hm, hP⟩ | ⟨r, e, hm, hp, hP⟩ | ⟨r, v, e, hm, hp, ht, hP⟩ | ⟨r, v, e, t1, hm, hp, ht, hl, hP⟩ |
    ⟨r, v, sts, t1, hm, hp, ht, hl, hd, hP⟩ | ⟨r, v, sts, t1, e, t2, hm, hp, ht, hl, hd, hcr, hP⟩ |
    ⟨r, v, sts, t1, t2, hm, hp, ht, hl, hd, hcr, hP⟩
  · rw [hrev] at hm; cases hm
  · rw [hrev] at hm; cases hm; rw [hparse] at hp; cases hp
  · rw [hstate] at ht; cases ht
  all_goals
    rw [hrev] at hm; cases hm; rw [hparse] at hp; cases hp
    rw [hP]
    simp [listCount, RemoteCall.isList, postListOptions]

/-- C8. Every create-status call of `Post` is addressed to the adapter's owner
and repository and the revision parsed from the event metadata; its state is
the one `toGiteaState` returns, its context and description are the name and
description `formatNameAndDescription` returns, and its target URL is empty. -/
theorem Post_create_call {κ σ : Type} (h : Helpers) (api : GiteaAPI κ σ) (g : Gitea κ)
    (s : σ) (event : Event) (c : RemoteCall)
    (hmem : c ∈ (Post h api g s event).calls) (hcreate : c.isCreate = true) :
    ∃ revString rev, event.Metadata MetaRevisionKey = some revString ∧
      h.parseRevision revString = .ok rev ∧
      c = .createStatus g.Owner g.Repo rev
        { State := (toGiteaState event).1, TargetURL := "",
          Description := (h.formatNameAndDescription event).2,
          Context := (h.formatNameAndDescription event).1 } := by
  rcases Post_cases h api g s event with
    ⟨hm, hP⟩ | ⟨r, e, hm, hp, hP⟩ | ⟨r, v, e, hm, hp, ht, hP⟩ | ⟨r, v, e, t1, hm, hp, ht, hl, hP⟩ |
    ⟨r, v, sts, t1, hm, hp, ht, hl, hd, hP⟩ | ⟨r, v, sts, t1, e, t2, hm, hp, ht, hl, hd, hcr, hP⟩ |
    ⟨r, v, sts, t1, t2, hm, hp, ht, hl, hd, hcr, hP⟩
  · rw [hP] at hmem; simp at hmem
  · rw [hP] at hmem; simp at hmem
  · rw [hP] at hmem; simp at hmem
  · rw [hP] at hmem
    simp only [List.mem_singleton] at hmem
    subst hmem
    simp [RemoteCall.isCreate] at hcreate
  · rw [hP] at hmem
    simp only [List.mem_singleton] at hmem
    subst hmem
    simp [RemoteCall.isCreate] at hcreate
  all_goals
    rw [hP] at hmem
    simp only [List.mem_cons, List.mem_singleton, List.mem_nil_iff, or_false] at hmem
    rcases hmem with hmem | hmem
    · subst hmem
      simp [RemoteCall.isCreate] at hcreate
    · exact ⟨r, v, hm, hp, hmem⟩

/-! ## Splitting the repository identifier -/

theorem splitSep_ne_nil (sep : Char) (l : List Char) : splitSep sep l ≠ [] := by
  cases l with
  | nil => simp [splitSep]
  | cons c cs =>
    unfold splitSep
    split_ifs
    · simp
    · split <;> simp

/-- No piece of a split contains the separator. -/
theorem not_mem_of_mem_splitSep (sep : Char) (l : List Char) :
    ∀ w ∈ splitSep sep l, sep ∉ w := by
  induction l with
  | nil => simp [splitSep]
  | cons c cs ih =>
    intro w hw
    unfold splitSep at hw
    split_ifs at hw with hc
    · rcases List.mem_cons.mp hw with h1 | h2
      · subst h1; simp
      · exact ih w h2
    · rcases hs : splitSep sep cs with _ | ⟨w0, ws⟩
      · exact absurd hs (splitSep_ne_nil sep cs)
      · rw [hs] at hw ih
        rcases List.mem_cons.mp hw with h1 | h2
        · subst h1
          intro hmem
          rcases List.mem_cons.mp hmem with h3 | h4
          · exact hc h3.symm
          · exact ih w0 (List.mem_cons_self _ _) h4
        · exact ih w (List.mem_cons_of_mem _ h2)

/-- Joining the pieces of a split with the separator gives the sequence back. -/
theorem intercalate_splitSep (sep : Char) (l : List Char) :
    [sep].intercalate (splitSep sep l) = l := by
  induction l with
  | nil => simp [splitSep, List.intercalate]
  | cons c cs ih =>
    unfold splitSep
    split_ifs with hc
    · rcases hs : splitSep sep cs with _ | ⟨w0, ws⟩
      · exact absurd hs (splitSep_ne_nil sep cs)
      · rw [hs] at ih
        simp only [List.intercalate, List.intersperse, List.flatten, List.nil_append,
          List.singleton_append] at ih ⊢
        rw [ih, hc]
    · rcases hs : splitSep sep cs with _ | ⟨w0, ws⟩
      · exact absurd hs (splitSep_ne_nil sep cs)
      · rw [hs] at ih
        cases ws with
        | nil =>
          simp only [List.intercalate, List.intersperse, List.flatten, List.append_nil] at ih ⊢
          rw [ih]
        | cons w1 ws =>
          simp only [List.intercalate, List.intersperse, List.flatten, List.cons_append] at ih ⊢
          rw [ih]

/-- A split has one more piece than the sequence has separators. -/
theorem length_splitSep (sep : Char) (l : List Char) :
    (splitSep sep l).length = l.count sep + 1 := by
  induction l with
  | nil => simp [splitSep]
  | cons c cs ih =>
    unfold splitSep
    split_ifs with hc
    · subst hc
      simp [ih]
    · rcases hs : splitSep sep cs with _ | ⟨w0, ws⟩
      · exact absurd hs (splitSep_ne_nil sep cs)
      · rw [hs] at ih
        have hne : (c == sep) = false := by simpa using hc
        simp only [List.length_cons] at ih ⊢
        rw [List.count_cons, hne]
        simpa using ih

theorem splitSep_of_not_mem (sep : Char) (l : List Char) (h : sep ∉ l) :
    splitSep sep l = [l] := by
  induction l with
  | nil => rfl
  | cons c cs ih =>
    have hc : ¬ c = sep := fun e => h (e ▸ List.mem_cons_self _ _)
    have hcs : sep ∉ cs := fun e => h (List.mem_cons_of_mem _ e)
    simp [splitSep, hc, ih hcs]

theorem splitSep_append (sep : Char) (a b : List Char) (ha : sep ∉ a) :
    splitSep sep (a ++ sep :: b) = a :: splitSep sep b := by
  induction a with
  | nil => simp [splitSep]
  | cons c cs ih =>
    have hc : ¬ c = sep := fun e => ha (e ▸ List.mem_cons_self _ _)
    have hcs : sep ∉ cs := fun e => ha (List.mem_cons_of_mem _ e)
    simp [splitSep, hc, ih hcs]

/-- An identifier `owner/repo` without further `/` splits into its two parts. -/
theorem stringsSplit_pair (owner repo : String) (ho : '/' ∉ owner.data)
    (hr : '/' ∉ repo.data) :
    stringsSplit (owner ++ "/" ++ repo) '/' = [owner, repo] := by
  have hd : (owner ++ "/" ++ repo).data = owner.data ++ '/' :: repo.data := by
    simp [String.data_append]
  simp [stringsSplit, hd, splitSep_append _ _ _ ho, splitSep_of_not_mem _ _ hr]

/-- When an identifier splits into two pieces, neither contains `/` and the
identifier is the two joined by `/`. -/
theorem stringsSplit_eq_pair (id comp0 comp1 : String)
    (h : stringsSplit id '/' = [comp0, comp1]) :
    '/' ∉ comp0.data ∧ '/' ∉ comp1.data ∧ id = comp0 ++ "/" ++ comp1 := by
  unfold stringsSplit at h
  rcases hs : splitSep '/' id.data with _ | ⟨w0, _ | ⟨w1, _ | ⟨w2, ws⟩⟩⟩
  · exact absurd hs (splitSep_ne_nil _ _)
  · rw [hs] at h; simp at h
  · rw [hs] at h
    simp only [List.map_cons, List.map_nil, List.cons.injEq, and_true] at h
    obtain ⟨h0, h1⟩ := h
    have hmem := not_mem_of_mem_splitSep '/' id.data
    rw [hs] at hmem
    have hj := intercalate_splitSep '/' id.data
    rw [hs] at hj
    refine ⟨?_, ?_, ?_⟩
    · rw [← h0]; exact hmem w0 (by simp)
    · rw [← h1]; exact hmem w1 (by simp)
    · apply String.ext
      rw [← h0, ← h1, ← hj]
      simp [String.data_append, List.intercalate, List.intersperse]
  · rw [hs] at h; simp at h

/-! ## The constructor -/

/-- C9, as amended. `NewGitea` returns an error and no adapter whenever the
identifier obtained from the address does not split at `/` into exactly two
pieces; every adapter it returns has an owner and a repository without `/`
whose join by `/` is the parsed identifier. Either piece may be empty. -/
theorem NewGitea_component_count {κ ρ : Type} (d : Deps κ ρ) (addr token : String)
    (certPool : Option ρ) :
    (∀ host id, d.parseGitAddress addr = .ok (host, id) →
      (stringsSplit id '/').length ≠ 2 →
      (NewGitea d addr token certPool).1 = none ∧
        (NewGitea d addr token certPool).2 ≠ none) ∧
    (∀ g, (NewGitea d addr token certPool).1 = some g →
      '/' ∉ g.Owner.data ∧ '/' ∉ g.Repo.data ∧
        ∃ host, d.parseGitAddress addr = .ok (host, g.Owner ++ "/" ++ g.Repo)) := by
  refine ⟨?_, ?_⟩
  · intro host id hparse hlen
    unfold NewGitea
    split_ifs with htok
    · simp
    · simp only [hparse]
      rcases d.urlParse host with _ | err
      · simp only
        split
        · next comp0 comp1 hsplit =>
          rw [hsplit] at hlen
          simp at hlen
        · simp
      · simp
  · intro g hg
    unfold NewGitea at hg
    split_ifs at hg with htok
    · rcases hparse : d.parseGitAddress addr with err | ⟨host, id⟩
      · rw [hparse] at hg; simp at hg
      · rw [hparse] at hg
        simp only at hg
        rcases hurl : d.urlParse host with _ | err
        · rw [hurl] at hg
          simp only at hg
          split at hg
          · next comp0 comp1 hsplit =>
            rcases hclient : d.newClient host token with err | client
            · rw [hclient] at hg; simp at hg
            · rw [hclient] at hg
              simp only [Option.some.injEq] at hg
              obtain ⟨h0, h1, hid⟩ := stringsSplit_eq_pair id comp0 comp1 hsplit
              subst hg
              exact ⟨h0, h1, host, by rw [hid]⟩
          · simp at hg
        · rw [hurl] at hg; simp at hg

/-- C10. For a non-empty token and an address that the parser splits into a
host and an identifier `owner/repo` with no `/` in either part, once the host
has passed the URL check and the client construction succeeds, `NewGitea`
returns without error an adapter with that host as `BaseURL`, `owner` as
`Owner` and `repo` as `Repo`. -/
theorem NewGitea_ok {κ ρ : Type} (d : Deps κ ρ) (addr token host owner repo : String)
    (certPool : Option ρ) (client : κ)
    (htoken : token ≠ "")
    (hparse : d.parseGitAddress addr = .ok (host, owner ++ "/" ++ repo))
    (ho : '/' ∉ owner.data) (hr : '/' ∉ repo.data)
    (hurl : d.urlParse host = none)
    (hclient : d.newClient host token = .ok client) :
    ∃ g, NewGitea d addr token certPool = (some g, none) ∧
      g.BaseURL = host ∧ g.Owner = owner ∧ g.Repo = repo ∧ g.Token = token ∧
      g.Owner ++ "/" ++ g.Repo = owner ++ "/" ++ repo := by
  have hlen : ¬ token.length = 0 := by
    intro h0
    apply htoken
    apply String.ext
    exact List.length_eq_zero.mp h0
  unfold NewGitea
  simp only [if_neg hlen, hparse, hurl, stringsSplit_pair owner repo ho hr, hclient]
  exact ⟨_, rfl, rfl, rfl, rfl, rfl, rfl⟩

/-! ## Concrete instances of the theorems -/

/-- C1 at a listing whose first record is not comparable and whose second
record repeats the new status: the new status is a duplicate. -/
theorem duplicateGiteaStatus_iff_witness :
    duplicateGiteaStatus
      [⟨"", "ready", "Kustomization/app"⟩, ⟨"success", "ready", "Kustomization/app"⟩]
      (some ⟨"success", "", "ready", "Kustomization/app"⟩) = true ∧
    ((∀ s ∈ [(⟨"success", "ready", "Kustomization/other"⟩ : Status)], s.comparable →
        s.Context ≠ "Kustomization/app") ∧
      duplicateGiteaStatus [⟨"success", "ready", "Kustomization/other"⟩]
        (some ⟨"success", "", "ready", "Kustomization/app"⟩) = false) :=
  ⟨(duplicateGiteaStatus_iff _ ⟨"success", "", "ready", "Kustomization/app"⟩).1.mpr
      ⟨⟨"success", "ready", "Kustomization/app"⟩, by decide, rfl, rfl⟩,
    by decide,
    (duplicateGiteaStatus_iff [⟨"success", "ready", "Kustomization/other"⟩]
      ⟨"success", "", "ready", "Kustomization/app"⟩).2.2 (by decide)⟩

/-- C2 at a progressing event of unknown severity and at an event of unknown
severity without the progressing reason. -/
theorem toGiteaState_spec_witness :
    ((sampleEvent "trace" "Progressing" none).HasReason ProgressingReason = true ∧
      toGiteaState (sampleEvent "trace" "Progressing" none) = (StatusPending, none)) ∧
    ∃ err, (toGiteaState (sampleEvent "trace" "ReconciliationSucceeded" none)).2 = some err :=
  ⟨⟨by decide, (toGiteaState_spec (sampleEvent "trace" "Progressing" none)).1 (by decide)⟩,
    (toGiteaState_spec (sampleEvent "trace" "ReconciliationSucceeded" none)).2.2.2
      (by decide) (by decide) (by decide)⟩

/-- C3. The code departs from the claim, and from the comment above
`duplicateGiteaStatus` ("true if the latest status with a matching context
has the same state and description"), when the description is empty: the
listing's only record is `{Kustomization/app, success, ""}`, the event maps to
the same context, state and (empty) description, yet `duplicateGiteaStatus`
answers false, because a record with an empty field is passed over, and `Post`
issues one create-status call instead of none. -/
theorem Post_dedup_empty_description :
    toGiteaState (sampleEvent "info" "" (some "main/abc123")) = ("success", none) ∧
    sampleHelpers.formatNameAndDescription (sampleEvent "info" "" (some "main/abc123")) =
      ("Kustomization/app", "") ∧
    ([⟨"success", "", "Kustomization/app"⟩] : List Status).find?
        (fun r => decide (r.Context = "Kustomization/app")) =
      some ⟨"success", "", "Kustomization/app"⟩ ∧
    duplicateGiteaStatus [⟨"success", "", "Kustomization/app"⟩]
      (some ⟨"success", "", "", "Kustomization/app"⟩) = false ∧
    (Post sampleHelpers (sampleAPI none none) sampleGitea
        [⟨"success", "", "Kustomization/app"⟩]
        (sampleEvent "info" "" (some "main/abc123"))).err = none ∧
    createCount (Post sampleHelpers (sampleAPI none none) sampleGitea
        [⟨"success", "", "Kustomization/app"⟩]
        (sampleEvent "info" "" (some "main/abc123"))).calls = 1 := by
  decide

/-- Deduplication at a listing whose newest record for the context repeats the
event (no create-status call) and at an event with another description (one
create-status call). -/
theorem Post_dedup_witness :
    createCount (Post sampleHelpers (sampleAPI none none) sampleGitea
        [⟨"success", "ReconciliationSucceeded", "Kustomization/app"⟩]
        (sampleEvent "info" "ReconciliationSucceeded" (some "main/abc123"))).calls = 0 ∧
    createCount (Post sampleHelpers (sampleAPI none none) sampleGitea
        [⟨"success", "ReconciliationSucceeded", "Kustomization/app"⟩]
        (sampleEvent "info" "HealthCheckSucceeded" (some "main/abc123"))).calls = 1 :=
  ⟨Post_dedup sampleHelpers (sampleAPI none none) sampleGitea
      [⟨"success", "ReconciliationSucceeded", "Kustomization/app"⟩]
      [⟨"success", "ReconciliationSucceeded", "Kustomization/app"⟩]
      (sampleEvent "info" "ReconciliationSucceeded" (some "main/abc123"))
      "main/abc123" "abc123" "Kustomization/app" "success" "ReconciliationSucceeded"
      "ReconciliationSucceeded" [⟨"success", "ReconciliationSucceeded", "Kustomization/app"⟩]
      rfl rfl (by decide) (by decide) rfl (by decide) (by decide) (by decide),
    Post_dedup sampleHelpers (sampleAPI none none) sampleGitea
      [⟨"success", "ReconciliationSucceeded", "Kustomization/app"⟩]
      [⟨"success", "ReconciliationSucceeded", "Kustomization/app"⟩]
      (sampleEvent "info" "HealthCheckSucceeded" (some "main/abc123"))
      "main/abc123" "abc123" "Kustomization/app" "success" "ReconciliationSucceeded"
      "HealthCheckSucceeded" [⟨"success", "ReconciliationSucceeded", "Kustomization/app"⟩]
      rfl rfl (by decide) (by decide) rfl (by decide) (by decide) (by decide)⟩

/-- C4 at an event without revision metadata. -/
theorem Post_input_error_no_call_witness :
    (sampleEvent "info" "ReconciliationSucceeded" none).Metadata MetaRevisionKey = none ∧
    (Post sampleHelpers (sampleAPI none none) sampleGitea []
        (sampleEvent "info" "ReconciliationSucceeded" none)).err ≠ none ∧
    (Post sampleHelpers (sampleAPI none none) sampleGitea []
        (sampleEvent "info" "ReconciliationSucceeded" none)).calls = [] ∧
    listCount (Post sampleHelpers (sampleAPI none none) sampleGitea []
        (sampleEvent "info" "ReconciliationSucceeded" none)).calls = 0 ∧
    createCount (Post sampleHelpers (sampleAPI none none) sampleGitea []
        (sampleEvent "info" "ReconciliationSucceeded" none)).calls = 0 :=
  ⟨rfl, Post_input_error_no_call sampleHelpers (sampleAPI none none) sampleGitea []
    (sampleEvent "info" "ReconciliationSucceeded" none) (Or.inl rfl)⟩

/-- C6 at a remote service whose listing fails and at one whose create call
fails. -/
theorem Post_remote_error_witness :
    ((Post sampleHelpers (sampleAPI (some (.other "net.OpError" "timeout")) none) sampleGitea []
        (sampleEvent "info" "ReconciliationSucceeded" (some "main/abc123"))).err =
        some (.errorString "could not list commit statuses: timeout") ∧
      createCount (Post sampleHelpers (sampleAPI (some (.other "net.OpError" "timeout")) none)
        sampleGitea [] (sampleEvent "info" "ReconciliationSucceeded"
          (some "main/abc123"))).calls = 0) ∧
    (Post sampleHelpers (sampleAPI none (some (.other "net.OpError" "timeout"))) sampleGitea []
        (sampleEvent "info" "ReconciliationSucceeded" (some "main/abc123"))).err =
      some (.other "net.OpError" "timeout") :=
  ⟨⟨((Post_remote_error sampleHelpers (sampleAPI (some (.other "net.OpError" "timeout")) none)
        sampleGitea [] (sampleEvent "info" "ReconciliationSucceeded" (some "main/abc123"))).1
        "abc123" (.other "net.OpError" "timeout") [] (by decide) rfl).1,
      ((Post_remote_error sampleHelpers (sampleAPI (some (.other "net.OpError" "timeout")) none)
        sampleGitea [] (sampleEvent "info" "ReconciliationSucceeded" (some "main/abc123"))).1
        "abc123" (.other "net.OpError" "timeout") [] (by decide) rfl).2.2⟩,
    (Post_remote_error sampleHelpers (sampleAPI none (some (.other "net.OpError" "timeout")))
      sampleGitea [] (sampleEvent "info" "ReconciliationSucceeded" (some "main/abc123"))).2
      "abc123" ⟨"success", "", "ReconciliationSucceeded", "Kustomization/app"⟩
      (.other "net.OpError" "timeout") (by decide) rfl⟩

/-- C7 fails as stated: the list-statuses call of a run that reaches the
listing step carries `Page` 0, and no call with `Page` 1 is made. -/
theorem Post_list_page_counterexample :
    (Post sampleHelpers (sampleAPI none none) sampleGitea []
        (sampleEvent "info" "ReconciliationSucceeded" (some "main/abc123"))).calls =
      [.listStatuses "foo" "bar" "abc123" { Page := 0, PageSize := 50 },
        .createStatus "foo" "bar" "abc123"
          ⟨"success", "", "ReconciliationSucceeded", "Kustomization/app"⟩] ∧
    RemoteCall.listStatuses "foo" "bar" "abc123" { Page := 1, PageSize := 50 } ∉
      (Post sampleHelpers (sampleAPI none none) sampleGitea []
        (sampleEvent "info" "ReconciliationSucceeded" (some "main/abc123"))).calls := by
  decide

/-- C7, as amended, at an event of severity info with revision `abc123`. -/
theorem Post_list_call_witness :
    (Post sampleHelpers (sampleAPI none none) sampleGitea []
        (sampleEvent "info" "ReconciliationSucceeded" (some "main/abc123"))).calls.head? =
      some (.listStatuses "foo" "bar" "abc123" { Page := 0, PageSize := 50 }) ∧
    listCount (Post sampleHelpers (sampleAPI none none) sampleGitea []
        (sampleEvent "info" "ReconciliationSucceeded" (some "main/abc123"))).calls = 1 :=
  ⟨(Post_list_call sampleHelpers (sampleAPI none none) sampleGitea []
      (sampleEvent "info" "ReconciliationSucceeded" (some "main/abc123"))
      "main/abc123" "abc123" rfl rfl (by decide)).1,
    (Post_list_call sampleHelpers (sampleAPI none none) sampleGitea []
      (sampleEvent "info" "ReconciliationSucceeded" (some "main/abc123"))
      "main/abc123" "abc123" rfl rfl (by decide)).2.1⟩

/-- C8 at the create-status call of a run on an empty listing. -/
theorem Post_create_call_witness :
    ∃ revString rev,
      (sampleEvent "info" "ReconciliationSucceeded" (some "main/abc123")).Metadata
        MetaRevisionKey = some revString ∧
      sampleHelpers.parseRevision revString = .ok rev ∧
      RemoteCall.createStatus "foo" "bar" "abc123"
          ⟨"success", "", "ReconciliationSucceeded", "Kustomization/app"⟩ =
        .createStatus sampleGitea.Owner sampleGitea.Repo rev
          { State := (toGiteaState
              (sampleEvent "info" "ReconciliationSucceeded" (some "main/abc123"))).1,
            TargetURL := "",
            Description := (sampleHelpers.formatNameAndDescription
              (sampleEvent "info" "ReconciliationSucceeded" (some "main/abc123"))).2,
            Context := (sampleHelpers.formatNameAndDescription
              (sampleEvent "info" "ReconciliationSucceeded" (some "main/abc123"))).1 } :=
  Post_create_call sampleHelpers (sampleAPI none none) sampleGitea []
    (sampleEvent "info" "ReconciliationSucceeded" (some "main/abc123"))
    (.createStatus "foo" "bar" "abc123"
      ⟨"success", "", "ReconciliationSucceeded", "Kustomization/app"⟩)
    (by decide) rfl

/-- C9 fails as stated: for the address `https://try.gitea.io/foo/` the parsed
identifier is `foo/`, which splits into the two pieces `foo` and the empty
string, and `NewGitea` returns without error an adapter whose `Repo` is
empty. -/
theorem NewGitea_empty_repo_counterexample :
    sampleDeps.parseGitAddress "https://try.gitea.io/foo/" =
      .ok ("https://try.gitea.io", "foo/") ∧
    stringsSplit "foo/" '/' = ["foo", ""] ∧
    (NewGitea sampleDeps "https://try.gitea.io/foo/" "foobar" none).1.map
        (fun g => (g.BaseURL, g.Owner, g.Repo)) = some ("https://try.gitea.io", "foo", "") ∧
    (NewGitea sampleDeps "https://try.gitea.io/foo/" "foobar" none).2 = none :=
  ⟨rfl, by decide, by decide, by decide⟩

/-- C9, as amended, at the address with a third path segment. -/
theorem NewGitea_component_count_witness :
    sampleDeps.parseGitAddress "https://try.gitea.io/foo/bar/baz" =
      .ok ("https://try.gitea.io", "foo/bar/baz") ∧
    (stringsSplit "foo/bar/baz" '/').length ≠ 2 ∧
    (NewGitea sampleDeps "https://try.gitea.io/foo/bar/baz" "foobar" none).1 = none ∧
    (NewGitea sampleDeps "https://try.gitea.io/foo/bar/baz" "foobar" none).2 ≠ none :=
  ⟨rfl, by decide,
    (NewGitea_component_count sampleDeps "https://try.gitea.io/foo/bar/baz" "foobar" none).1
      "https://try.gitea.io" "foo/bar/baz" rfl (by decide)⟩

/-- C10 at the address `https://try.gitea.io/foo/bar` with token `foobar`. -/
theorem NewGitea_ok_witness :
    ∃ g, NewGitea sampleDeps "https://try.gitea.io/foo/bar" "foobar" none = (some g, none) ∧
      g.BaseURL = "https://try.gitea.io" ∧ g.Owner = "foo" ∧ g.Repo = "bar" ∧
      g.Token = "foobar" ∧ g.Owner ++ "/" ++ g.Repo = "foo" ++ "/" ++ "bar" :=
  NewGitea_ok sampleDeps "https://try.gitea.io/foo/bar" "foobar" "https://try.gitea.io"
    "foo" "bar" none "https://try.gitea.io" (by decide) rfl (by decide) (by decide) rfl rfl

end Notifier
